import Mathlib

/-
Shallow embedding of the email-reply pipeline in src/api/index.ts
(SawyerHood/chat-mail).  The POST /api/incoming-email handler is modelled
as a pure function over an environment of external collaborators
(HTTP fetch, base64 encoding, JSON parsing of the attachments field,
the completion provider, and the outbound-mail provider), returning a
trace that records which external calls were made and the final outcome.
JavaScript-specific behaviour (truthiness of strings, template-literal
interpolation of undefined, a TypeError on a property access of
undefined) is modelled explicitly where the handler depends on it.
-/

namespace ChatMail

/-- JS truthiness test used by the handler on possibly-undefined string
fields: undefined and the empty string are falsy. -/
def jsFalsyOptStr : Option String → Bool
  | none => true
  | some s => s == ""

/-- JS template-literal interpolation of a possibly-undefined string
value: undefined prints as the literal text undefined. -/
def jsTemplateStr : Option String → String
  | none => "undefined"
  | some s => s

/-- JS String.prototype.startsWith, modelled as a prefix test on the
character sequences of the two strings. -/
def jsStartsWith (s p : String) : Bool :=
  p.data.isPrefixOf s.data

/-- One entry of the attachments array of the Mailgun webhook payload
(src/api/index.ts lines 49-54).  The content-type key may be absent in
the raw JSON, hence an Option. -/
structure AttachmentRef where
  url : String
  contentType : Option String
  name : String
  size : Nat
deriving Repr, DecidableEq

/-- The raw attachments field of the webhook body: absent, a JSON string,
or some other already-parsed value such as an array (the handler only
JSON-parses it when it is a string, src/api/index.ts lines 80-83). -/
inductive AttachmentsField where
  | absent
  | str (s : String)
  | parsedArray (l : List AttachmentRef)
deriving Repr, DecidableEq

/-- The fields of the webhook body the handler reads
(src/api/index.ts lines 76-83).  Each plain field is an Option because
the body is untyped at runtime and any key may be missing. -/
structure WebhookBody where
  sender : Option String
  subject : Option String
  strippedText : Option String
  messageId : Option String
  attachments : AttachmentsField
deriving Repr, DecidableEq

/-- A content part of the user message
(src/api/index.ts lines 98-100): a text part or an image_url part whose
url is a data URI. -/
inductive ContentPart where
  | text (t : String)
  | imageUrl (url : String)
deriving Repr, DecidableEq

/-- Message content sent to the completion provider: either a plain
string (the system message) or a list of content parts (the user
message). -/
inductive MessageContent where
  | str (s : String)
  | parts (l : List ContentPart)
deriving Repr, DecidableEq

/-- One chat message of the completion request. -/
structure ChatMessage where
  role : String
  content : MessageContent
deriving Repr, DecidableEq

/-- The completion request the handler builds
(src/api/index.ts lines 134-138). -/
structure CompletionRequest where
  messages : List ChatMessage
  model : String
  maxTokens : Nat
deriving Repr, DecidableEq

/-- The message of one returned choice; content may be null or absent. -/
structure ChoiceMessage where
  content : Option String
deriving Repr, DecidableEq

/-- One returned choice; the optional-chaining access
completion.choices[0]?.message?.content treats the message itself as
possibly absent. -/
structure Choice where
  message : Option ChoiceMessage
deriving Repr, DecidableEq

/-- The completion-provider response: an ordered list of choices. -/
structure CompletionResponse where
  choices : List Choice
deriving Repr, DecidableEq

/-- The outbound message object passed to mg.messages.create
(src/api/index.ts lines 146-153).  A field holding an absent value is an
omitted header on the wire. -/
structure MailMessage where
  fromAddr : String
  «to» : Option String
  subject : String
  text : String
  inReplyTo : Option String
  references : Option String
deriving Repr, DecidableEq

/-- Result of the outbound-mail call: the promise resolves or rejects. -/
inductive SendResult where
  | ok
  | failure (msg : String)
deriving Repr, DecidableEq

/-- The response object of one HTTP fetch: ok flag, status, statusText
and the body bytes (abstracted as a string). -/
structure FetchResponse where
  ok : Bool
  status : Nat
  statusText : String
  body : String
deriving Repr, DecidableEq

/-- The distinct throw sites of the handler.  Each constructor carries
the data the corresponding JS Error is built from. -/
inductive PipelineError where
  | validationError (msg : String)
  | downloadError (status : Nat) (statusText : String)
  | generationError (msg : String)
  | dispatchError (msg : String)
  | typeError (msg : String)
deriving Repr, DecidableEq

/-- Whether an error was raised by the outbound-dispatch call. -/
def PipelineError.isDispatch : PipelineError → Bool
  | .dispatchError _ => true
  | _ => false

/-- The message of the JS Error a pipeline error surfaces as
(the catch block reads error.message, src/api/index.ts lines 156-161). -/
def errorMessage : PipelineError → String
  | .validationError m => m
  | .downloadError status statusText =>
      "Failed to download attachment: " ++ toString status ++ " " ++ statusText
  | .generationError m => m
  | .dispatchError m => m
  | .typeError m => m

/-- The JSON response the handler returns: 200 success or 500 error
(src/api/index.ts lines 155 and 160). -/
inductive HandlerResponse where
  | success (message : String)
  | error (httpStatus : Nat) (message : String)
deriving Repr, DecidableEq

/-- External collaborators and configuration of the handler, modelled as
oracles: fetch for attachment downloads, toBase64 for
Buffer.toString with base64, jsonParse for JSON.parse of the
attachments string (assumed to yield an array of attachment records),
the completion provider, the outbound-mail provider, and the two
environment values the handler reads. -/
structure Env where
  fetch : String → FetchResponse
  toBase64 : String → String
  jsonParse : String → List AttachmentRef
  completion : CompletionRequest → CompletionResponse
  send : String → MailMessage → SendResult
  fromEmail : String
  mailgunDomain : String

/-- downloadAttachment (src/api/index.ts lines 58-68): fetch the url and
throw a download error carrying status and statusText when the response
is not ok, else return the body bytes. -/
def downloadAttachment (env : Env) (url : String) : Except PipelineError String :=
  if !(env.fetch url).ok then
    .error (.downloadError (env.fetch url).status (env.fetch url).statusText)
  else
    .ok (env.fetch url).body

/-- Trace of one handler run: the urls passed to fetch in order, the
completion request if the provider was invoked, the domain and message
if the outbound send was invoked, and the final outcome. -/
structure RunTrace where
  fetchedUrls : List String
  completionCalled : Option CompletionRequest
  sendCalled : Option (String × MailMessage)
  result : Except PipelineError Unit
deriving Repr

/-- The HTTP response derived from a run outcome
(src/api/index.ts lines 155-161). -/
def RunTrace.response (t : RunTrace) : HandlerResponse :=
  match t.result with
  | .ok _ => .success "Response sent successfully"
  | .error e => .error 500 (errorMessage e)

/-- Computation of the attachments local
(src/api/index.ts lines 80-83): the field is JSON-parsed only when it is
truthy and a string; in every other case (absent, empty string, or an
already-parsed non-string value) the handler uses the empty array. -/
def parseAttachments (env : Env) : AttachmentsField → List AttachmentRef
  | .str s => if s == "" then [] else env.jsonParse s
  | .absent => []
  | .parsedArray _ => []

/-- The fixed system instruction (src/api/index.ts lines 90-94). -/
def systemPrompt : String :=
  "You are a helpful email assistant. Provide clear and concise responses. If images are included, describe them and incorporate their context into your response."

/-- The completion request built from the user content
(src/api/index.ts lines 89-95, 128-138). -/
def mkCompletionRequest (userContent : List ContentPart) : CompletionRequest :=
  { messages := [⟨"system", .str systemPrompt⟩, ⟨"user", .parts userContent⟩]
    model := "gpt-4o-mini"
    maxTokens := 1000 }

/-- The text parts pushed before the attachment loop
(src/api/index.ts lines 104-107): one text part when strippedText is
truthy, none otherwise. -/
def textPartsOf (strippedText : Option String) : List ContentPart :=
  if jsFalsyOptStr strippedText then [] else [.text (strippedText.getD "")]

/-- The attachment loop (src/api/index.ts lines 112-125), processed
sequentially.  Accessing content-type on an attachment that lacks it
throws a TypeError (JS: reading startsWith of undefined).  An image
attachment is downloaded and contributes an image_url part with a data
URI; a failed download aborts the loop; a non-image attachment is
skipped.  Returns the urls fetched in order and either the collected
parts or the first error. -/
def processAttachments (env : Env) :
    List AttachmentRef → List String × Except PipelineError (List ContentPart)
  | [] => ([], .ok [])
  | a :: rest =>
    match a.contentType with
    | none =>
      ([], .error (.typeError "Cannot read properties of undefined (reading startsWith)"))
    | some ct =>
      if jsStartsWith ct "image/" then
        match downloadAttachment env a.url with
        | .error e => ([a.url], .error e)
        | .ok imageBuffer =>
          let restRes := processAttachments env rest
          (a.url :: restRes.1,
            match restRes.2 with
            | .ok parts =>
                .ok (ContentPart.imageUrl
                  ("data:" ++ ct ++ ";base64," ++ env.toBase64 imageBuffer) :: parts)
            | .error e => .error e)
      else
        processAttachments env rest

/-- The image test the attachment loop applies when the content type is
present; an attachment without a content type is treated here as
non-image (the loop itself instead throws on it). -/
def isImageAtt (a : AttachmentRef) : Bool :=
  match a.contentType with
  | some ct => jsStartsWith ct "image/"
  | none => false

/-- The image_url part a clean attachment contributes: the data URI
built from its content type and the base64 of its fetched bytes; none
for a non-image or content-type-less attachment. -/
def imagePartOf (env : Env) (a : AttachmentRef) : Option ContentPart :=
  match a.contentType with
  | some ct =>
    if jsStartsWith ct "image/" then
      some (.imageUrl ("data:" ++ ct ++ ";base64," ++ env.toBase64 (env.fetch a.url).body))
    else none
  | none => none

/-- The object literal passed to mg.messages.create
(src/api/index.ts lines 146-153): reply-to sender, subject prefixed with
Re:, body equal to the reply text, and both threading headers set to the
possibly-absent messageId. -/
def composeMessage (env : Env) (body : WebhookBody) (replyText : String) : MailMessage :=
  { fromAddr := env.fromEmail
    «to» := body.sender
    subject := "Re: " ++ jsTemplateStr body.subject
    text := replyText
    inReplyTo := body.messageId
    references := body.messageId }

/-- Extraction of the reply text:
completion.choices[0]?.message?.content (src/api/index.ts line 140). -/
def extractAiText (c : CompletionResponse) : Option String :=
  (c.choices.head?.bind Choice.message).bind ChoiceMessage.content

/-- The dispatch step (src/api/index.ts lines 146-155): invoke the
outbound-mail provider with the composed message; a rejected send
surfaces as a dispatch error, a resolved one yields the success
outcome. -/
def dispatchStage (env : Env) (body : WebhookBody) (fetched : List String)
    (request : CompletionRequest) (replyText : String) : RunTrace :=
  match env.send env.mailgunDomain (composeMessage env body replyText) with
  | .ok =>
      ⟨fetched, some request, some (env.mailgunDomain, composeMessage env body replyText),
        .ok ()⟩
  | .failure m =>
      ⟨fetched, some request, some (env.mailgunDomain, composeMessage env body replyText),
        .error (.dispatchError m)⟩

/-- The generation step (src/api/index.ts lines 134-143): invoke the
completion provider with the assembled messages, throw a generation
error when the extracted text is falsy (absent or empty), else proceed
to dispatch with the extracted text. -/
def generateStage (env : Env) (body : WebhookBody) (fetched : List String)
    (userContent : List ContentPart) : RunTrace :=
  if jsFalsyOptStr (extractAiText (env.completion (mkCompletionRequest userContent))) then
    ⟨fetched, some (mkCompletionRequest userContent), none,
      .error (.generationError "Failed to generate AI response")⟩
  else
    dispatchStage env body fetched (mkCompletionRequest userContent)
      ((extractAiText (env.completion (mkCompletionRequest userContent))).getD "")

/-- The POST /api/incoming-email handler (src/api/index.ts lines 71-162):
parse the attachments field, reject when strippedText is falsy and the
parsed attachments array is empty, run the attachment loop, and on
success hand the text part plus image parts to the generation step.  Any
thrown error becomes the recorded error outcome (the catch block). -/
def handleIncomingEmail (env : Env) (body : WebhookBody) : RunTrace :=
  if jsFalsyOptStr body.strippedText && (parseAttachments env body.attachments).length == 0 then
    ⟨[], none, none, .error (.validationError "No email content or attachments found")⟩
  else
    match processAttachments env (parseAttachments env body.attachments) with
    | (fetched, .error e) => ⟨fetched, none, none, .error e⟩
    | (fetched, .ok imageParts) =>
        generateStage env body fetched (textPartsOf body.strippedText ++ imageParts)

/-- When the validation condition holds the handler returns the
validation-error trace without any external call. -/
theorem handle_validation (env : Env) (body : WebhookBody)
    (h : (jsFalsyOptStr body.strippedText
        && (parseAttachments env body.attachments).length == 0) = true) :
    handleIncomingEmail env body =
      ⟨[], none, none, .error (.validationError "No email content or attachments found")⟩ := by
  unfold handleIncomingEmail
  simp [h]

/-- When validation passes and the attachment loop fails, the handler
returns that error with the fetch trace of the loop and no further
external call. -/
theorem handle_attErr (env : Env) (body : WebhookBody) (f : List String) (e : PipelineError)
    (hv : (jsFalsyOptStr body.strippedText
        && (parseAttachments env body.attachments).length == 0) = false)
    (hp : processAttachments env (parseAttachments env body.attachments) = (f, .error e)) :
    handleIncomingEmail env body = ⟨f, none, none, .error e⟩ := by
  unfold handleIncomingEmail
  simp [hv, hp]

/-- When validation passes and the attachment loop succeeds, the handler
continues with the generation step on the combined content. -/
theorem handle_ok (env : Env) (body : WebhookBody) (f : List String) (ps : List ContentPart)
    (hv : (jsFalsyOptStr body.strippedText
        && (parseAttachments env body.attachments).length == 0) = false)
    (hp : processAttachments env (parseAttachments env body.attachments) = (f, .ok ps)) :
    handleIncomingEmail env body =
      generateStage env body f (textPartsOf body.strippedText ++ ps) := by
  unfold handleIncomingEmail
  simp [hv, hp]

/-- The generation step always records the completion call it makes. -/
theorem generateStage_completionCalled (env : Env) (body : WebhookBody)
    (f : List String) (uc : List ContentPart) :
    (generateStage env body f uc).completionCalled = some (mkCompletionRequest uc) := by
  unfold generateStage dispatchStage
  split
  · rfl
  · split <;> rfl

/-- The generation step never fetches; its fetch trace is the one handed
to it by the attachment loop. -/
theorem generateStage_fetchedUrls (env : Env) (body : WebhookBody)
    (f : List String) (uc : List ContentPart) :
    (generateStage env body f uc).fetchedUrls = f := by
  unfold generateStage dispatchStage
  split
  · rfl
  · split <;> rfl

/-- When the extracted text is falsy the generation step fails with the
generation error and the send is not invoked. -/
theorem generateStage_genErr (env : Env) (body : WebhookBody)
    (f : List String) (uc : List ContentPart)
    (h : jsFalsyOptStr (extractAiText (env.completion (mkCompletionRequest uc))) = true) :
    generateStage env body f uc =
      ⟨f, some (mkCompletionRequest uc), none,
        .error (.generationError "Failed to generate AI response")⟩ := by
  unfold generateStage
  simp [h]

/-- When the extracted text is not falsy the generation step proceeds to
dispatch with the extracted text. -/
theorem generateStage_genOk (env : Env) (body : WebhookBody)
    (f : List String) (uc : List ContentPart)
    (h : jsFalsyOptStr (extractAiText (env.completion (mkCompletionRequest uc))) = false) :
    generateStage env body f uc =
      dispatchStage env body f (mkCompletionRequest uc)
        ((extractAiText (env.completion (mkCompletionRequest uc))).getD "") := by
  unfold generateStage
  simp [h]

/-- When the outbound send resolves, the dispatch step records the send
and succeeds. -/
theorem dispatchStage_sendOk (env : Env) (body : WebhookBody) (f : List String)
    (req : CompletionRequest) (r : String)
    (h : env.send env.mailgunDomain (composeMessage env body r) = .ok) :
    dispatchStage env body f req r =
      ⟨f, some req, some (env.mailgunDomain, composeMessage env body r), .ok ()⟩ := by
  unfold dispatchStage
  simp [h]

/-- When the outbound send rejects, the dispatch step records the send
and fails with the dispatch error. -/
theorem dispatchStage_sendFail (env : Env) (body : WebhookBody) (f : List String)
    (req : CompletionRequest) (r : String) (m : String)
    (h : env.send env.mailgunDomain (composeMessage env body r) = .failure m) :
    dispatchStage env body f req r =
      ⟨f, some req, some (env.mailgunDomain, composeMessage env body r),
        .error (.dispatchError m)⟩ := by
  unfold dispatchStage
  simp [h]

/-- Whenever a run records a send, the message sent is the composed
message for some reply text and the domain is the configured one. -/
theorem sendCalled_composed (env : Env) (body : WebhookBody) (d : String) (m : MailMessage)
    (h : (handleIncomingEmail env body).sendCalled = some (d, m)) :
    d = env.mailgunDomain ∧ ∃ r, m = composeMessage env body r := by
  unfold handleIncomingEmail generateStage dispatchStage at h
  split at h
  · simp at h
  · split at h
    · simp at h
    · split at h
      · simp at h
      · split at h
        · simp at h
          exact ⟨h.1.symm, _, h.2.symm⟩
        · simp at h
          exact ⟨h.1.symm, _, h.2.symm⟩

/-- A fetch with an ok response yields the body bytes. -/
theorem downloadAttachment_ok (env : Env) (url : String)
    (h : (env.fetch url).ok = true) :
    downloadAttachment env url = .ok (env.fetch url).body := by
  unfold downloadAttachment
  simp [h]

/-- A fetch with a non-ok response yields the download error carrying
its status and status text. -/
theorem downloadAttachment_fail (env : Env) (url : String)
    (h : (env.fetch url).ok = false) :
    downloadAttachment env url =
      .error (.downloadError (env.fetch url).status (env.fetch url).statusText) := by
  unfold downloadAttachment
  simp [h]

/-- On a list of attachments that all declare a content type and whose
image members all fetch successfully, the loop fetches exactly the image
urls in order and collects exactly the image parts in order. -/
theorem processAttachments_ok (env : Env) (atts : List AttachmentRef)
    (hCT : ∀ a ∈ atts, ∃ ct, a.contentType = some ct)
    (hFetch : ∀ a ∈ atts, isImageAtt a = true → (env.fetch a.url).ok = true) :
    processAttachments env atts =
      ((atts.filter isImageAtt).map AttachmentRef.url,
        .ok (atts.filterMap (imagePartOf env))) := by
  induction atts with
  | nil => rfl
  | cons a rest ih =>
    obtain ⟨ct, hct⟩ := hCT a (List.mem_cons_self a rest)
    have ihr := ih (fun b hb => hCT b (List.mem_cons_of_mem _ hb))
      (fun b hb => hFetch b (List.mem_cons_of_mem _ hb))
    by_cases himg : jsStartsWith ct "image/" = true
    · have hia : isImageAtt a = true := by simp [isImageAtt, hct, himg]
      have hok : (env.fetch a.url).ok = true := hFetch a (List.mem_cons_self a rest) hia
      simp only [processAttachments, hct, himg, if_true,
        downloadAttachment_ok env a.url hok, ihr,
        List.filter_cons, hia, List.map_cons, List.filterMap_cons,
        imagePartOf]
    · have hia : isImageAtt a = false := by simp [isImageAtt, hct, himg]
      have himg' : jsStartsWith ct "image/" = false := by simpa using himg
      simp only [processAttachments, hct, himg', Bool.false_eq_true, if_false,
        ihr, List.filter_cons, hia, List.filterMap_cons, imagePartOf]

/-- When a clean prefix is followed by an image attachment whose fetch
is not ok, the loop fetches the prefix image urls and the failing url,
then stops with the download error; later attachments are never
fetched. -/
theorem processAttachments_firstFail (env : Env) (pre post : List AttachmentRef)
    (a : AttachmentRef) (ct : String)
    (hpre : ∀ b ∈ pre,
      (∃ c, b.contentType = some c) ∧ (isImageAtt b = true → (env.fetch b.url).ok = true))
    (hct : a.contentType = some ct) (himg : jsStartsWith ct "image/" = true)
    (hfail : (env.fetch a.url).ok = false) :
    processAttachments env (pre ++ a :: post) =
      ((pre.filter isImageAtt).map AttachmentRef.url ++ [a.url],
        .error (.downloadError (env.fetch a.url).status (env.fetch a.url).statusText)) := by
  induction pre with
  | nil =>
    simp only [List.nil_append, List.filter_nil, List.map_nil]
    simp only [processAttachments, hct, himg, if_true,
      downloadAttachment_fail env a.url hfail]
  | cons b rest ih =>
    obtain ⟨⟨c, hc⟩, hbok⟩ := hpre b (List.mem_cons_self b rest)
    have ihr := ih (fun x hx => hpre x (List.mem_cons_of_mem _ hx))
    by_cases hbi : jsStartsWith c "image/" = true
    · have hib : isImageAtt b = true := by simp [isImageAtt, hc, hbi]
      have hok : (env.fetch b.url).ok = true := hbok hib
      simp only [List.cons_append, processAttachments, hc, hbi, if_true,
        downloadAttachment_ok env b.url hok, List.append_eq, ihr,
        List.filter_cons, hib, List.map_cons, List.cons_append]
    · have hib : isImageAtt b = false := by simp [isImageAtt, hc, hbi]
      have hbi' : jsStartsWith c "image/" = false := by simpa using hbi
      simp only [List.cons_append, processAttachments, hc, hbi', Bool.false_eq_true,
        if_false, List.append_eq, ihr, List.filter_cons, hib]

/-- Each attachment contributes at most one image part, so the number
of collected image parts equals the number of image attachments. -/
theorem filterMap_imagePartOf_length (env : Env) (atts : List AttachmentRef) :
    (atts.filterMap (imagePartOf env)).length = (atts.filter isImageAtt).length := by
  induction atts with
  | nil => rfl
  | cons a rest ih =>
    rcases hct : a.contentType with _ | ct
    · simp [List.filterMap_cons, List.filter_cons, imagePartOf, isImageAtt, hct, ih]
    · by_cases himg : jsStartsWith ct "image/" = true
      · simp [List.filterMap_cons, List.filter_cons, imagePartOf, isImageAtt, hct, himg, ih]
      · have himg' : jsStartsWith ct "image/" = false := by simpa using himg
        simp [List.filterMap_cons, List.filter_cons, imagePartOf, isImageAtt, hct, himg', ih]

/-- A single attachment can only contribute an image part. -/
theorem imagePartOf_shape (env : Env) (a : AttachmentRef) (p : ContentPart)
    (h : imagePartOf env a = some p) : ∃ u, p = ContentPart.imageUrl u := by
  rcases hct : a.contentType with _ | ct
  · simp [imagePartOf, hct] at h
  · by_cases himg : jsStartsWith ct "image/" = true
    · simp only [imagePartOf, hct, himg, if_true, Option.some.injEq] at h
      exact ⟨_, h.symm⟩
    · have himg' : jsStartsWith ct "image/" = false := by simpa using himg
      simp [imagePartOf, hct, himg'] at h

/-- Every collected attachment part is an image part. -/
theorem filterMap_imagePartOf_shape (env : Env) (atts : List AttachmentRef) :
    ∀ p ∈ atts.filterMap (imagePartOf env), ∃ u, p = ContentPart.imageUrl u := by
  intro p hp
  simp only [List.mem_filterMap] at hp
  obtain ⟨a, _, ha⟩ := hp
  exact imagePartOf_shape env a p ha

/-- A concrete non-image attachment record. -/
def pdfAtt : AttachmentRef :=
  ⟨"http://files.example/doc.pdf", some "application/pdf", "doc.pdf", 100⟩

/-- A concrete attachment record whose content-type key is absent. -/
def noCtAtt : AttachmentRef :=
  ⟨"http://files.example/mystery", none, "mystery", 5⟩

/-- A concrete image attachment record whose download succeeds. -/
def pngAtt : AttachmentRef :=
  ⟨"http://files.example/cat.png", some "image/png", "cat.png", 2048⟩

/-- A concrete image attachment record whose download fails with 404. -/
def badJpgAtt : AttachmentRef :=
  ⟨"http://files.example/bad.jpg", some "image/jpeg", "bad.jpg", 900⟩

/-- A concrete environment in which every collaborator succeeds: every
fetch except the bad jpg returns 200 with fixed bytes, the provider
returns one choice with a fixed reply, and the outbound send resolves.
The jsonParse oracle maps a few fixed attachment strings to fixed
arrays. -/
def envA : Env :=
  { fetch := fun u =>
      if u == "http://files.example/bad.jpg" then ⟨false, 404, "Not Found", ""⟩
      else ⟨true, 200, "OK", "BYTES"⟩
    toBase64 := fun s => s ++ "-b64"
    jsonParse := fun s =>
      if s == "[pdf]" then [pdfAtt]
      else if s == "[noct]" then [noCtAtt]
      else if s == "[png]" then [pngAtt]
      else if s == "[png,bad,png]" then [pngAtt, badJpgAtt, pngAtt]
      else []
    completion := fun _ => ⟨[⟨some ⟨some "Sure!"⟩⟩]⟩
    send := fun _ _ => .ok
    fromEmail := "bot@replies.example"
    mailgunDomain := "replies.example" }

/-- Like envA but the completion provider returns an empty choices
list. -/
def envEmptyChoices : Env :=
  { envA with completion := fun _ => ⟨[]⟩ }

/-- A payload with empty text and one non-image attachment. -/
def bodyOnlyPdf : WebhookBody :=
  ⟨some "a@x.com", some "Hi", none, none, .str "[pdf]"⟩

/-- A payload with text and one attachment lacking a content type. -/
def bodyNoCt : WebhookBody :=
  ⟨some "a@x.com", some "Hi", some "hello", none, .str "[noct]"⟩

/-- A payload with text present but no sender. -/
def bodyNoSender : WebhookBody :=
  ⟨none, some "Hi", some "Hello", none, .absent⟩

/-- C1 counterexample: on a record with empty strippedText and a single
non-image attachment, the pipeline does not fail with a validation
error before the completion call; it invokes the completion provider
with an empty content list and the run succeeds end to end. -/
theorem C1_counterexample :
    (handleIncomingEmail envA bodyOnlyPdf).completionCalled
        = some (mkCompletionRequest [])
      ∧ (handleIncomingEmail envA bodyOnlyPdf).result = .ok () :=
  ⟨rfl, rfl⟩

/-- C1 (amended): a record with empty strippedText whose parsed
attachments list is empty fails with the validation error before any
fetch, completion call or send; but a record with empty strippedText
whose attachments are all non-image (with declared content types) is
not rejected: it reaches the completion call with an empty content
sequence. -/
theorem C1_amended (env : Env) (body : WebhookBody)
    (hText : jsFalsyOptStr body.strippedText = true) :
    (parseAttachments env body.attachments = [] →
      handleIncomingEmail env body =
        ⟨[], none, none, .error (.validationError "No email content or attachments found")⟩)
    ∧ ((∀ a ∈ parseAttachments env body.attachments,
          ∃ ct, a.contentType = some ct ∧ jsStartsWith ct "image/" = false) →
        parseAttachments env body.attachments ≠ [] →
        (handleIncomingEmail env body).completionCalled = some (mkCompletionRequest [])) := by
  constructor
  · intro hAtts
    exact handle_validation env body (by simp [hText, hAtts])
  · intro hall hne
    have hCT : ∀ a ∈ parseAttachments env body.attachments, ∃ ct, a.contentType = some ct :=
      fun a ha => ⟨(hall a ha).choose, (hall a ha).choose_spec.1⟩
    have hNoImg : ∀ a ∈ parseAttachments env body.attachments, isImageAtt a = false := by
      intro a ha
      obtain ⟨ct, hct, hno⟩ := hall a ha
      simp [isImageAtt, hct, hno]
    have hFetch : ∀ a ∈ parseAttachments env body.attachments,
        isImageAtt a = true → (env.fetch a.url).ok = true := by
      intro a ha habs
      rw [hNoImg a ha] at habs
      cases habs
    have hv : (jsFalsyOptStr body.strippedText
        && (parseAttachments env body.attachments).length == 0) = false := by
      rcases h : parseAttachments env body.attachments with _ | ⟨x, xs⟩
      · exact absurd h hne
      · simp [h]
    have hfilter : (parseAttachments env body.attachments).filter isImageAtt = [] :=
      List.filter_eq_nil_iff.mpr (by intro a ha; simp [hNoImg a ha])
    have hfm : (parseAttachments env body.attachments).filterMap (imagePartOf env) = [] := by
      rw [List.filterMap_eq_nil_iff]
      intro a ha
      obtain ⟨ct, hct, hno⟩ := hall a ha
      simp [imagePartOf, hct, hno]
    have hp := processAttachments_ok env (parseAttachments env body.attachments) hCT hFetch
    rw [hfilter, hfm] at hp
    rw [handle_ok env body _ _ hv hp]
    rw [generateStage_completionCalled]
    simp [textPartsOf, hText]

/-- C1 witness: a record with empty text and an absent attachments field
is rejected with the validation error before any external call. -/
theorem C1_witness :
    handleIncomingEmail envA ⟨some "a@x.com", some "Hi", none, none, .absent⟩ =
      ⟨[], none, none, .error (.validationError "No email content or attachments found")⟩ :=
  (C1_amended envA ⟨some "a@x.com", some "Hi", none, none, .absent⟩ rfl).1 rfl

/-- C2 counterexample: on a record carrying an attachment whose
content type is absent, the attachment loop is not a skip: the handler
throws (a TypeError on the startsWith access) and the record fails,
with no completion call made. -/
theorem C2_counterexample :
    (handleIncomingEmail envA bodyNoCt).result =
        .error (.typeError "Cannot read properties of undefined (reading startsWith)")
      ∧ (handleIncomingEmail envA bodyNoCt).completionCalled = none :=
  ⟨rfl, rfl⟩

/-- C2 (amended): an attachment whose declared content type is a string
that does not begin with image/ is skipped, contributing no part and no
error; but an attachment whose content type is absent makes the loop
throw a TypeError, aborting the whole record. -/
theorem C2_amended (env : Env) (a : AttachmentRef) (rest : List AttachmentRef) :
    (∀ ct, a.contentType = some ct → jsStartsWith ct "image/" = false →
        processAttachments env (a :: rest) = processAttachments env rest)
    ∧ (a.contentType = none →
        processAttachments env (a :: rest) =
          ([], .error (.typeError "Cannot read properties of undefined (reading startsWith)"))) := by
  constructor
  · intro ct hct hno
    simp [processAttachments, hct, hno]
  · intro hct
    simp [processAttachments, hct]

/-- C2 witness: a concrete non-image attachment is skipped, leaving the
loop result of the empty list. -/
theorem C2_witness :
    processAttachments envA [pdfAtt] = ([], .ok []) :=
  (C2_amended envA pdfAtt []).1 "application/pdf" rfl rfl

/-- C9 counterexample: on a payload with no sender field but non-empty
text, the pipeline does not fail with a validation error: the completion
provider is invoked, the outbound send is invoked with an absent
to-address, and the run succeeds. -/
theorem C9_counterexample :
    (handleIncomingEmail envA bodyNoSender).completionCalled
        = some (mkCompletionRequest [ContentPart.text "Hello"])
      ∧ (handleIncomingEmail envA bodyNoSender).sendCalled
        = some ("replies.example",
            ⟨"bot@replies.example", none, "Re: Hi", "Sure!", none, none⟩)
      ∧ (handleIncomingEmail envA bodyNoSender).result = .ok () :=
  ⟨rfl, rfl, rfl⟩

/-- C9 (amended): the parse/validate step checks only for usable
content; an absent sender is not rejected.  For a payload with no
sender, non-empty text and no parsed attachments, the pipeline proceeds
to invoke the completion provider, and any message it dispatches has an
absent to-address. -/
theorem C9_amended (env : Env) (body : WebhookBody)
    (hsender : body.sender = none)
    (hText : jsFalsyOptStr body.strippedText = false)
    (hAtts : parseAttachments env body.attachments = []) :
    (handleIncomingEmail env body).completionCalled
        = some (mkCompletionRequest (textPartsOf body.strippedText))
    ∧ ∀ d m, (handleIncomingEmail env body).sendCalled = some (d, m) → m.to = none := by
  have hv : (jsFalsyOptStr body.strippedText
      && (parseAttachments env body.attachments).length == 0) = false := by
    simp [hText]
  have hp : processAttachments env (parseAttachments env body.attachments) = ([], .ok []) := by
    rw [hAtts]
    rfl
  constructor
  · rw [handle_ok env body _ _ hv hp, generateStage_completionCalled]
    simp
  · intro d m hm
    obtain ⟨_, r, hr⟩ := sendCalled_composed env body d m hm
    rw [hr]
    simp [composeMessage, hsender]

/-- C9 witness: the amended statement at the concrete no-sender
payload. -/
theorem C9_witness :
    (handleIncomingEmail envA bodyNoSender).completionCalled
        = some (mkCompletionRequest (textPartsOf bodyNoSender.strippedText))
      ∧ ∀ d m, (handleIncomingEmail envA bodyNoSender).sendCalled = some (d, m) →
          m.to = none :=
  C9_amended envA bodyNoSender rfl rfl rfl

/-- A payload with text and one image attachment. -/
def bodyImg : WebhookBody :=
  ⟨some "a@x.com", some "Hi", some "look", none, .str "[png]"⟩

/-- C3: for every inbound record with non-empty strippedText and
attachments that all declare a content type and whose image members all
download successfully, the completion provider receives exactly the
single text part followed by one image part per image attachment, in the
original attachment order; the number of image parts equals the number
of image attachments (so 1 + N parts in total) and every non-text part
is an image part. -/
theorem C3_theorem (env : Env) (body : WebhookBody) (s : String)
    (hText : body.strippedText = some s) (hs : s ≠ "")
    (hCT : ∀ a ∈ parseAttachments env body.attachments, ∃ ct, a.contentType = some ct)
    (hFetch : ∀ a ∈ parseAttachments env body.attachments,
      isImageAtt a = true → (env.fetch a.url).ok = true) :
    (handleIncomingEmail env body).completionCalled =
        some (mkCompletionRequest (ContentPart.text s ::
          (parseAttachments env body.attachments).filterMap (imagePartOf env)))
    ∧ ((parseAttachments env body.attachments).filterMap (imagePartOf env)).length =
        ((parseAttachments env body.attachments).filter isImageAtt).length
    ∧ ∀ p ∈ (parseAttachments env body.attachments).filterMap (imagePartOf env),
        ∃ u, p = ContentPart.imageUrl u := by
  have hfal : jsFalsyOptStr body.strippedText = false := by
    simp [jsFalsyOptStr, hText, hs]
  have hv : (jsFalsyOptStr body.strippedText
      && (parseAttachments env body.attachments).length == 0) = false := by
    simp [hfal]
  have hp := processAttachments_ok env (parseAttachments env body.attachments) hCT hFetch
  refine ⟨?_, filterMap_imagePartOf_length env _, filterMap_imagePartOf_shape env _⟩
  rw [handle_ok env body _ _ hv hp, generateStage_completionCalled]
  simp [textPartsOf, hText, jsFalsyOptStr, hs]

/-- C3 witness: on the concrete payload with text and one png
attachment, the provider receives the text part followed by the single
image data URI. -/
theorem C3_witness :
    (handleIncomingEmail envA bodyImg).completionCalled =
      some (mkCompletionRequest [ContentPart.text "look",
        ContentPart.imageUrl "data:image/png;base64,BYTES-b64"]) := by
  have hl : parseAttachments envA bodyImg.attachments = [pngAtt] := rfl
  have h := (C3_theorem envA bodyImg "look" rfl (by decide)
    (by
      intro a ha
      rw [hl, List.mem_singleton] at ha
      exact ⟨"image/png", by rw [ha]; rfl⟩)
    (by
      intro a ha _
      rw [hl, List.mem_singleton] at ha
      rw [ha]; rfl)).1
  exact h

/-- A payload whose subject already carries the Re: marker. -/
def bodyRe : WebhookBody :=
  ⟨some "a@x.com", some "Re: Hi", some "hello", none, .absent⟩

/-- C5: every message the handler dispatches carries the subject
Re: followed by the original subject, with no de-duplication and no
special case for an empty subject. -/
theorem C5_theorem (env : Env) (body : WebhookBody) (s d : String) (m : MailMessage)
    (hsub : body.subject = some s)
    (hsend : (handleIncomingEmail env body).sendCalled = some (d, m)) :
    m.subject = "Re: " ++ s := by
  obtain ⟨-, r, hr⟩ := sendCalled_composed env body d m hsend
  rw [hr]
  simp [composeMessage, jsTemplateStr, hsub]

/-- C5 witness: on the concrete payload whose subject is already
Re: Hi, the dispatched subject is Re: Re: Hi. -/
theorem C5_witness :
    (composeMessage envA bodyRe "Sure!").subject = "Re: " ++ "Re: Hi" :=
  C5_theorem envA bodyRe "Re: Hi" "replies.example"
    (composeMessage envA bodyRe "Sure!") rfl rfl

/-- A payload carrying a message id. -/
def bodyMid : WebhookBody :=
  ⟨some "a@x.com", some "Hi", some "hello", some "<mid@x>", .absent⟩

/-- C6: every dispatched message sets both threading headers to the
inbound message id when it is present, and leaves both absent when the
message id is absent. -/
theorem C6_theorem (env : Env) (body : WebhookBody) (d : String) (m : MailMessage)
    (hsend : (handleIncomingEmail env body).sendCalled = some (d, m)) :
    (∀ x, body.messageId = some x → m.inReplyTo = some x ∧ m.references = some x)
    ∧ (body.messageId = none → m.inReplyTo = none ∧ m.references = none) := by
  obtain ⟨-, r, hr⟩ := sendCalled_composed env body d m hsend
  subst hr
  constructor
  · intro x hx
    simp [composeMessage, hx]
  · intro hx
    simp [composeMessage, hx]

/-- C6 witness: on the concrete payload with a message id, both
threading headers of the dispatched message equal that id. -/
theorem C6_witness :
    (composeMessage envA bodyMid "Sure!").inReplyTo = some "<mid@x>"
      ∧ (composeMessage envA bodyMid "Sure!").references = some "<mid@x>" :=
  (C6_theorem envA bodyMid "replies.example"
    (composeMessage envA bodyMid "Sure!") rfl).1 "<mid@x>" rfl

/-- A payload whose text asks for a reply the empty-choices provider
cannot give. -/
def bodyNoReply : WebhookBody :=
  ⟨some "a@x.com", some "Hi", some "noreply", none, .absent⟩

/-- C7: whenever a run invokes the completion provider, a falsy
extracted text (absent first choice, absent message or content, or
empty content) fails the run with the generation error and the send is
never invoked; a non-falsy extracted text is dispatched verbatim as the
reply body. -/
theorem C7_theorem (env : Env) (body : WebhookBody) (req : CompletionRequest)
    (hreq : (handleIncomingEmail env body).completionCalled = some req) :
    (jsFalsyOptStr (extractAiText (env.completion req)) = true →
        (handleIncomingEmail env body).result =
            .error (.generationError "Failed to generate AI response")
          ∧ (handleIncomingEmail env body).sendCalled = none)
    ∧ (jsFalsyOptStr (extractAiText (env.completion req)) = false →
        ∃ d m, (handleIncomingEmail env body).sendCalled = some (d, m)
          ∧ m.text = (extractAiText (env.completion req)).getD "") := by
  by_cases hv : (jsFalsyOptStr body.strippedText
      && (parseAttachments env body.attachments).length == 0) = true
  · rw [handle_validation env body hv] at hreq
    simp at hreq
  · have hv' : (jsFalsyOptStr body.strippedText
        && (parseAttachments env body.attachments).length == 0) = false := by
      simpa using hv
    rcases hps : processAttachments env (parseAttachments env body.attachments) with ⟨f, r⟩
    cases r with
    | error e =>
      rw [handle_attErr env body f e hv' hps] at hreq
      simp at hreq
    | ok ps =>
      rw [handle_ok env body f ps hv' hps] at hreq ⊢
      rw [generateStage_completionCalled] at hreq
      have hreqEq : req = mkCompletionRequest (textPartsOf body.strippedText ++ ps) :=
        (Option.some.inj hreq).symm
      subst hreqEq
      by_cases hg : jsFalsyOptStr (extractAiText (env.completion
          (mkCompletionRequest (textPartsOf body.strippedText ++ ps)))) = true
      · rw [generateStage_genErr env body f _ hg]
        constructor
        · intro _
          exact ⟨rfl, rfl⟩
        · intro hfalse
          rw [hg] at hfalse
          cases hfalse
      · have hg' : jsFalsyOptStr (extractAiText (env.completion
            (mkCompletionRequest (textPartsOf body.strippedText ++ ps)))) = false := by
          simpa using hg
        rw [generateStage_genOk env body f _ hg']
        constructor
        · intro htrue
          rw [hg'] at htrue
          cases htrue
        · intro _
          cases hsend : env.send env.mailgunDomain (composeMessage env body
              ((extractAiText (env.completion
                (mkCompletionRequest (textPartsOf body.strippedText ++ ps)))).getD "")) with
          | ok =>
            rw [dispatchStage_sendOk env body f _ _ hsend]
            exact ⟨env.mailgunDomain, composeMessage env body _, rfl, rfl⟩
          | failure mm =>
            rw [dispatchStage_sendFail env body f _ _ mm hsend]
            exact ⟨env.mailgunDomain, composeMessage env body _, rfl, rfl⟩

/-- C7 witness: with a provider returning an empty choices list, the
concrete run fails with the generation error and no send is invoked. -/
theorem C7_witness :
    (handleIncomingEmail envEmptyChoices bodyNoReply).result =
        .error (.generationError "Failed to generate AI response")
      ∧ (handleIncomingEmail envEmptyChoices bodyNoReply).sendCalled = none :=
  (C7_theorem envEmptyChoices bodyNoReply
    (mkCompletionRequest [ContentPart.text "noreply"]) rfl).1 rfl

/-- A payload whose attachments are an image, a failing image and a
further image. -/
def bodyPics : WebhookBody :=
  ⟨some "a@x.com", some "Hi", some "pics", none, .str "[png,bad,png]"⟩

/-- C8: when the attachments consist of a clean prefix followed by an
image attachment whose fetch returns a non-success status, the run
fails with the download error carrying that status, the fetched urls
are exactly the prefix image urls followed by the failing url once (no
retry, no later fetch), and neither the completion provider nor the
outbound send is invoked. -/
theorem C8_theorem (env : Env) (body : WebhookBody) (pre post : List AttachmentRef)
    (a : AttachmentRef) (ct : String)
    (hatts : parseAttachments env body.attachments = pre ++ a :: post)
    (hpre : ∀ b ∈ pre,
      (∃ c, b.contentType = some c) ∧ (isImageAtt b = true → (env.fetch b.url).ok = true))
    (hct : a.contentType = some ct) (himg : jsStartsWith ct "image/" = true)
    (hfail : (env.fetch a.url).ok = false) :
    (handleIncomingEmail env body).fetchedUrls =
        (pre.filter isImageAtt).map AttachmentRef.url ++ [a.url]
    ∧ (handleIncomingEmail env body).result =
        .error (.downloadError (env.fetch a.url).status (env.fetch a.url).statusText)
    ∧ (handleIncomingEmail env body).completionCalled = none
    ∧ (handleIncomingEmail env body).sendCalled = none := by
  have hv : (jsFalsyOptStr body.strippedText
      && (parseAttachments env body.attachments).length == 0) = false := by
    rw [hatts]
    simp
  have hp : processAttachments env (parseAttachments env body.attachments) =
      ((pre.filter isImageAtt).map AttachmentRef.url ++ [a.url],
        .error (.downloadError (env.fetch a.url).status (env.fetch a.url).statusText)) := by
    rw [hatts]
    exact processAttachments_firstFail env pre post a ct hpre hct himg hfail
  rw [handle_attErr env body _ _ hv hp]
  exact ⟨rfl, rfl, rfl, rfl⟩

/-- C8 witness: on the concrete three-attachment payload whose middle
image returns 404, exactly the first two urls are fetched, the run
fails with the 404 download error, and no completion or send call is
made. -/
theorem C8_witness :
    (handleIncomingEmail envA bodyPics).fetchedUrls =
        ["http://files.example/cat.png", "http://files.example/bad.jpg"]
      ∧ (handleIncomingEmail envA bodyPics).result =
          .error (.downloadError 404 "Not Found")
      ∧ (handleIncomingEmail envA bodyPics).completionCalled = none
      ∧ (handleIncomingEmail envA bodyPics).sendCalled = none := by
  have h := C8_theorem envA bodyPics [pngAtt] [pngAtt] badJpgAtt "image/jpeg" rfl
    (by
      intro b hb
      rw [List.mem_singleton] at hb
      subst hb
      exact ⟨⟨"image/png", rfl⟩, fun _ => rfl⟩)
    rfl rfl rfl
  exact h

/-- A payload whose attachments field is an already-parsed array. -/
def bodyParsedArr : WebhookBody :=
  ⟨some "a@x.com", some "Hi", some "yo", none, .parsedArray [pngAtt]⟩

/-- C10: a payload whose attachments field is present but not a string
is treated as having zero attachments: the field contents are
discarded, nothing is fetched, and the completion request (when
reached) contains only the text parts, never an image part. -/
theorem C10_theorem (env : Env) (body : WebhookBody) (l : List AttachmentRef)
    (hatts : body.attachments = .parsedArray l) :
    parseAttachments env body.attachments = []
    ∧ (handleIncomingEmail env body).fetchedUrls = []
    ∧ (∀ req, (handleIncomingEmail env body).completionCalled = some req →
        req = mkCompletionRequest (textPartsOf body.strippedText))
    ∧ ∀ p ∈ textPartsOf body.strippedText, ∃ t, p = ContentPart.text t := by
  have hpa : parseAttachments env body.attachments = [] := by
    rw [hatts]
    rfl
  have hp : processAttachments env (parseAttachments env body.attachments) = ([], .ok []) := by
    rw [hpa]
    rfl
  have hshape : ∀ p ∈ textPartsOf body.strippedText, ∃ t, p = ContentPart.text t := by
    intro p hp2
    unfold textPartsOf at hp2
    split at hp2
    · cases hp2
    · rw [List.mem_singleton] at hp2
      exact ⟨_, hp2⟩
  by_cases hT : jsFalsyOptStr body.strippedText = true
  · rw [handle_validation env body (by simp [hT, hpa])]
    refine ⟨hpa, rfl, ?_, hshape⟩
    intro req hreq
    cases hreq
  · have hT' : jsFalsyOptStr body.strippedText = false := by simpa using hT
    have hv : (jsFalsyOptStr body.strippedText
        && (parseAttachments env body.attachments).length == 0) = false := by
      simp [hT']
    rw [handle_ok env body [] [] hv hp]
    refine ⟨hpa, generateStage_fetchedUrls env body [] _, ?_, hshape⟩
    intro req hreq
    rw [generateStage_completionCalled] at hreq
    have := (Option.some.inj hreq).symm
    simpa using this

/-- C10 witness: an already-parsed array containing an image attachment
is discarded whole: nothing is parsed from it and nothing is
fetched. -/
theorem C10_witness :
    parseAttachments envA bodyParsedArr.attachments = []
      ∧ (handleIncomingEmail envA bodyParsedArr).fetchedUrls = [] :=
  ⟨(C10_theorem envA bodyParsedArr [pngAtt] rfl).1,
    (C10_theorem envA bodyParsedArr [pngAtt] rfl).2.1⟩

/-- A plain text-only payload on which every collaborator succeeds. -/
def bodyText : WebhookBody :=
  ⟨some "a@x.com", some "Hi", some "hello", none, .absent⟩

/-- C4: a run that fails for any reason other than the dispatch call
itself never invokes the outbound send, and the success response is
returned exactly when the send was invoked and completed
successfully. -/
theorem C4_theorem (env : Env) (body : WebhookBody) :
    (∀ e, (handleIncomingEmail env body).result = .error e →
        PipelineError.isDispatch e = false →
        (handleIncomingEmail env body).sendCalled = none)
    ∧ ((handleIncomingEmail env body).response = .success "Response sent successfully" ↔
        ∃ d m, (handleIncomingEmail env body).sendCalled = some (d, m)
          ∧ env.send d m = SendResult.ok) := by
  by_cases hv : (jsFalsyOptStr body.strippedText
      && (parseAttachments env body.attachments).length == 0) = true
  · rw [handle_validation env body hv]
    refine ⟨fun e he hd => rfl, ?_, ?_⟩
    · intro h
      simp [RunTrace.response] at h
    · rintro ⟨d, m, hm, -⟩
      cases hm
  · have hv' : (jsFalsyOptStr body.strippedText
        && (parseAttachments env body.attachments).length == 0) = false := by
      simpa using hv
    rcases hps : processAttachments env (parseAttachments env body.attachments) with ⟨f, r⟩
    cases r with
    | error e =>
      rw [handle_attErr env body f e hv' hps]
      refine ⟨fun e2 he hd => rfl, ?_, ?_⟩
      · intro h
        simp [RunTrace.response] at h
      · rintro ⟨d, m, hm, -⟩
        cases hm
    | ok ps =>
      rw [handle_ok env body f ps hv' hps]
      by_cases hg : jsFalsyOptStr (extractAiText (env.completion
          (mkCompletionRequest (textPartsOf body.strippedText ++ ps)))) = true
      · rw [generateStage_genErr env body f _ hg]
        refine ⟨fun e he hd => rfl, ?_, ?_⟩
        · intro h
          simp [RunTrace.response] at h
        · rintro ⟨d, m, hm, -⟩
          cases hm
      · have hg' : jsFalsyOptStr (extractAiText (env.completion
            (mkCompletionRequest (textPartsOf body.strippedText ++ ps)))) = false := by
          simpa using hg
        rw [generateStage_genOk env body f _ hg']
        cases hsend : env.send env.mailgunDomain (composeMessage env body
            ((extractAiText (env.completion
              (mkCompletionRequest (textPartsOf body.strippedText ++ ps)))).getD "")) with
        | ok =>
          rw [dispatchStage_sendOk env body f _ _ hsend]
          refine ⟨?_, ?_, ?_⟩
          · intro e he hd
            cases he
          · intro _
            exact ⟨env.mailgunDomain, composeMessage env body _, rfl, hsend⟩
          · intro _
            rfl
        | failure mm =>
          rw [dispatchStage_sendFail env body f _ _ mm hsend]
          refine ⟨?_, ?_, ?_⟩
          · intro e he hd
            have he2 : PipelineError.dispatchError mm = e := by
              injection he
            rw [← he2] at hd
            cases hd
          · intro h
            simp [RunTrace.response] at h
          · rintro ⟨d, m, hm, hok⟩
            have hd : env.mailgunDomain = d ∧ (composeMessage env body
                ((extractAiText (env.completion
                  (mkCompletionRequest (textPartsOf body.strippedText ++ ps)))).getD "")) = m := by
              simpa using hm
            rw [← hd.1, ← hd.2, hsend] at hok
            cases hok

/-- C4 witness: on the all-success environment and the plain text
payload, the success response is returned from a completed send. -/
theorem C4_witness :
    (handleIncomingEmail envA bodyText).response =
      .success "Response sent successfully" :=
  (C4_theorem envA bodyText).2.mpr
    ⟨"replies.example",
      ⟨"bot@replies.example", some "a@x.com", "Re: Hi", "Sure!", none, none⟩, rfl, rfl⟩

end ChatMail
